import Mathlib

/-!
Shallow embedding of the PL/Proxy remote execution engine (src/execute.c,
src/plproxy.h).  Pure data is modelled directly; libpq / SPI / OS effects
(socket readiness, poll results, remote result sets, clock readings) are
supplied as explicit oracle inputs, so every function below is an executable
translation of the corresponding C function, with the same control flow.

Machine integers: C uint32 values are modelled as Nat reduced mod 2^32
(toU32); C int values holding small tags are modelled as Int, with the
uint32 -> int conversion made explicit (toI32).
-/

namespace PlProxy

/-- C uint32 conversion: an Int reduced into [0, 2^32). -/
def toU32 (z : Int) : Nat := (z % (2 ^ 32 : Int)).toNat

/-- C int conversion of a uint32 value (two's complement). -/
def toI32 (n : Nat) : Int :=
  let m : Nat := n % 2 ^ 32
  if m < 2 ^ 31 then (m : Int) else (m : Int) - 2 ^ 32

/-- Connection states, from plproxy.h ConnState. -/
inductive ConnState
  | C_NONE
  | C_CONNECT_WRITE
  | C_CONNECT_READ
  | C_READY
  | C_QUERY_WRITE
  | C_QUERY_READ
  | C_DONE
deriving DecidableEq, Repr

/-- libpq result status; only the constructors execute.c distinguishes. -/
inductive ExecStatus
  | PGRES_TUPLES_OK
  | PGRES_COMMAND_OK
  | PGRES_FATAL_ERROR
  | PGRES_OTHER
deriving DecidableEq, Repr

/-- A libpq result: its status and its row count (PQntuples). -/
structure PGresult where
  status : ExecStatus
  ntuples : Nat
deriving DecidableEq, Repr

/-- Errors raised through plproxy_error / conn_error / elog(ERROR). -/
inductive Err
  | flushFailed          -- conn_error "PQflush"
  | sendFailed           -- conn_error "PQsendQueryParams" / "PQsendQuery"
  | tuningRepeat         -- conn_error "-- does not seem to apply"
  | connectPollFailed    -- conn_error "PQconnectPoll"
  | consumeFailed        -- conn_error "PQconsumeInput"
  | doubleResult         -- conn_error "double result?"
  | remoteFatal          -- plproxy_remote_error on PGRES_FATAL_ERROR
  | unexpectedResult     -- "Unexpected result type"
  | checkOldConnFailed   -- "check_old_conn: select failed"
  | noMem                -- "No memory for PGconn"
  | connectStartFailed   -- conn_error "PQconnectStart"
  | pollFailed           -- "poll() failed"
  | connectTimeout       -- "connect timeout to: ..."
  | queryTimeout         -- "query timeout"
  | runTagResMismatch    -- "run_tag does not match res"
  | unfinishedConn       -- "Unfinished connection"
  | lostResult           -- "Lost result"
  | remoteErrorResult    -- "Remote error: ..."
  | hashNull             -- "Hash function returned NULL"
  | hashBadType          -- "Hash result must be int2, int4 or int8"
  | hashCount            -- "Only set-returning function allows hashcount <> 1"
  | partOutOfRange       -- "part number out of range"
  | badRunType           -- "uninitialized run_type"
  | nullValue            -- get_int: "expected not-NULL value"
  | expectedIntArg       -- get_int: "expected int arg"
  | splitMultiDim        -- "split multi-dimensional arrays are not supported"
  | splitLengths         -- "split arrays must be of identical lengths"
deriving DecidableEq, Repr

instance instDecEqExcept {ε α : Type} [DecidableEq ε] [DecidableEq α] :
    DecidableEq (Except ε α) := fun x y =>
  match x, y with
  | Except.error a, Except.error b =>
    match decEq a b with
    | Decidable.isTrue h => Decidable.isTrue (h ▸ rfl)
    | Decidable.isFalse h => Decidable.isFalse (fun hc => h (Except.error.inj hc))
  | Except.error _, Except.ok _ => Decidable.isFalse (fun hc => Except.noConfusion hc)
  | Except.ok _, Except.error _ => Decidable.isFalse (fun hc => Except.noConfusion hc)
  | Except.ok a, Except.ok b =>
    match decEq a b with
    | Decidable.isTrue h => Decidable.isTrue (h ▸ rfl)
    | Decidable.isFalse h => Decidable.isFalse (fun hc => h (Except.ok.inj hc))

/-- The integer type OIDs the hash routing accepts, plus a non-integer case. -/
inductive POid
  | int2
  | int4
  | int8
  | other
deriving DecidableEq, Repr

/-- Run modes, from plproxy.h RunOnType. -/
inductive RunOnType
  | R_HASH
  | R_ALL
  | R_ANY
  | R_EXACT
deriving DecidableEq, Repr

/-- One element of a deconstructed array: (datum value, isnull flag). -/
abbrev Elem := Int × Bool

/-- DatumArray from plproxy.h: the value/null vectors of a deconstructed
array (elem_count is the list length; type info is elided since a single
element type appears per argument). -/
structure DatumArray where
  values : List Elem
deriving DecidableEq, Repr

/-- ProxyConnection from plproxy.h, restricted to the fields execute.c
reads or writes.  The libpq handle is modelled by its presence (db);
last_res_format records the resultformat argument most recently passed to
PQsendQueryParams; notice_recv records PQsetNoticeReceiver installation. -/
structure Conn where
  connstr : Nat := 0
  db : Bool := false
  res : Option PGresult := none
  pos : Nat := 0
  state : ConnState := ConnState.C_NONE
  connect_time : Int := 0
  query_time : Int := 0
  same_ver : Bool := false
  tuning : Bool := false
  run_tag : Int := 0
  split_params : Option (List (Option (List Elem))) := none
  bstate : Option (List (List Elem)) := none
  last_res_format : Bool := false
  notice_recv : Bool := false
deriving DecidableEq, Repr

instance : Inhabited Conn := ⟨{}⟩

/-- ProxyConfig from plproxy.h. -/
structure Config where
  connect_timeout : Int := 0
  query_timeout : Int := 0
  connection_lifetime : Int := 0
  disable_binary : Int := 0
deriving DecidableEq, Repr

/-- ProxyCluster, restricted to the fields execute.c uses.  part_map holds
indices into conns (the C code holds pointers into conn_list). -/
structure Cluster where
  config : Config := {}
  part_count : Nat := 0
  part_mask : Nat := 0
  part_map : List Nat := []
  conns : List Conn := []
  ret_total : Nat := 0
  ret_cur_conn : Nat := 0
  busy : Bool := false
deriving DecidableEq, Repr

/-- Scalar or composite return type; for a composite type the list holds
each column's has_recv flag. -/
inductive RetType
  | scalar (has_recv : Bool)
  | composite (col_recv : List Bool)
deriving DecidableEq, Repr

/-- Modelled from the spec: type.c (plproxy_composite_info) is not under
src/; per the plproxy.h comment on ProxyComposite.use_binary, the flag is
true iff all columns support binary recv. -/
def composite_use_binary (col_recv : List Bool) : Bool :=
  col_recv.all (fun b => b)

/-- ProxyFunction, restricted to what execute.c consumes. -/
structure Func where
  run_type : RunOnType := RunOnType.R_EXACT
  exact_nr : Int := 0
  retset : Bool := false            -- fcinfo->flinfo->fn_retset
  arg_count : Nat := 0
  split_args : List Bool := []
  new_split : Bool := false
  ret : RetType := RetType.scalar false
deriving DecidableEq, Repr

/-- IS_SPLIT_ARG from plproxy.h. -/
def isSplitArg (func : Func) (i : Nat) : Bool :=
  func.split_args.getD i false

/-- Read conn_list[i]. -/
def connAt (cl : Cluster) (i : Nat) : Conn :=
  cl.conns.getD i default

/-- Write conn_list[i]. -/
def setConn (cl : Cluster) (i : Nat) (c : Conn) : Cluster :=
  { cl with conns := cl.conns.set i c }

/-- Set conn_list[i].run_tag (the write part_map[p]->run_tag = tag). -/
def tagConn (cl : Cluster) (i : Nat) (tag : Int) : Cluster :=
  setConn cl i { connAt cl i with run_tag := tag }

/-- PLPROXY_IDLE_CONN_CHECK from plproxy.h. -/
def PLPROXY_IDLE_CONN_CHECK : Int := 2

/-- cmp_branch loop from execute.c with dot counter; C strings are
modelled as NUL-free char lists, [] standing for the terminator.
The post-increment in (this[i] == . and dot++) returns true only when a
dot was already seen. -/
def cmp_branch_aux (dot : Nat) : List Char → List Char → Bool
  | [], [] => true
  | [], b :: _ => decide (dot > 0 ∧ b = '.')
  | a :: _, [] => decide (dot > 0 ∧ a = '.')
  | a :: as, b :: bs =>
    if a ≠ b then false
    else if a = '.' then
      (if dot > 0 then true else cmp_branch_aux (dot + 1) as bs)
    else cmp_branch_aux dot as bs

/-- cmp_branch from execute.c: major/minor version prefixes match. -/
def cmp_branch (this that : List Char) : Bool :=
  cmp_branch_aux 0 this that

/-- flush_connection from execute.c; the PQflush return value is an
oracle input. -/
def flush_connection (conn : Conn) (flushRes : Int) : Except Err Conn :=
  if flushRes > 0 then Except.ok { conn with state := ConnState.C_QUERY_WRITE }
  else if flushRes = 0 then Except.ok { conn with state := ConnState.C_QUERY_READ }
  else Except.error Err.flushFailed

/-- Oracle inputs consumed by one send_query / tune_connection call:
clock reading, remote server_version and client_encoding reported by
libpq, local PG_VERSION and server encoding, and libpq call outcomes. -/
structure SendOracle where
  now : Int := 0
  dst_ver : List Char := []
  local_ver : List Char := []
  dst_enc : Option String := none
  this_enc : String := ""
  tuneSendOk : Bool := true
  tuneFlush : Int := 0
  sendOk : Bool := true
  flushRes : Int := 0

/-- tune_connection from execute.c.  A tuning SQL is assembled iff the
remote client_encoding is reported and differs from the local encoding;
same_ver is recomputed on every call. -/
def tune_connection (conn : Conn) (orc : SendOracle) : Except Err Conn :=
  let conn := { conn with same_ver := cmp_branch orc.dst_ver orc.local_ver }
  let needSql : Bool :=
    match orc.dst_enc with
    | some e => decide (e ≠ orc.this_enc)
    | none => false
  if needSql then
    if conn.tuning then Except.error Err.tuningRepeat
    else
      let conn := { conn with tuning := true, state := ConnState.C_QUERY_WRITE }
      if !orc.tuneSendOk then Except.error Err.sendFailed
      else flush_connection conn orc.tuneFlush
  else Except.ok { conn with tuning := false }

/-- The binary_result decision inside send_query (execute.c lines
178-192): binary only with binary io enabled, same backend version, and
a return type that supports binary recv. -/
def binary_result_of (cf : Config) (conn : Conn) (func : Func) : Bool :=
  if cf.disable_binary = 0 ∧ conn.same_ver then
    match func.ret with
    | RetType.scalar has_recv => has_recv
    | RetType.composite cols => composite_use_binary cols
  else false

/-- send_query from execute.c: record query_time, tune the connection
(returning early if a tuning query went out), decide the result format,
submit and flush. -/
def send_query (cf : Config) (func : Func) (conn : Conn) (orc : SendOracle) :
    Except Err Conn :=
  let conn := { conn with query_time := orc.now }
  match tune_connection conn orc with
  | Except.error e => Except.error e
  | Except.ok conn =>
    if conn.tuning then Except.ok conn
    else
      let conn := { conn with
        state := ConnState.C_QUERY_WRITE,
        last_res_format := binary_result_of cf conn func }
      if !orc.sendOk then Except.error Err.sendFailed
      else flush_connection conn orc.flushRes

/-- Outcome of the zero-timeout poll probe in check_old_conn (EINTR
retries are collapsed into the final outcome). -/
inductive PollProbe
  | pending
  | quiet
  | fail
deriving DecidableEq, Repr

/-- Oracle inputs consumed by one prepare_conn call. -/
structure PrepOracle where
  now : Int := 0
  status_ok : Bool := true        -- PQstatus(conn->db) == CONNECTION_OK
  probe : PollProbe := PollProbe.quiet
  start_ok : Bool := true         -- PQconnectStart returned non-NULL
  start_status_ok : Bool := true  -- PQstatus after start != CONNECTION_BAD
deriving Repr

/-- check_old_conn from execute.c: false means the connection should be
dropped. -/
def check_old_conn (cf : Config) (conn : Conn) (orc : PrepOracle) :
    Except Err Bool :=
  if !orc.status_ok then Except.ok false
  else if cf.connection_lifetime > 0 ∧
      orc.now - conn.connect_time ≥ cf.connection_lifetime then Except.ok false
  else if orc.now - conn.query_time < PLPROXY_IDLE_CONN_CHECK then Except.ok true
  else
    match orc.probe with
    | PollProbe.pending => Except.ok false
    | PollProbe.quiet => Except.ok true
    | PollProbe.fail => Except.error Err.checkOldConnFailed

/-- The drop branch of prepare_conn: PQfinish, state = C_NONE, clear
tuning. -/
def drop_conn (conn : Conn) : Conn :=
  { conn with db := false, state := ConnState.C_NONE, tuning := false }

/-- The launch branch of prepare_conn: record connect_time, PQconnectStart,
mark C_CONNECT_WRITE, then install the notice receiver. -/
def launch_conn (conn : Conn) (orc : PrepOracle) : Except Err Conn :=
  let conn := { conn with connect_time := orc.now }
  if !orc.start_ok then Except.error Err.noMem
  else
    let conn := { conn with db := true, state := ConnState.C_CONNECT_WRITE }
    if !orc.start_status_ok then Except.error Err.connectStartFailed
    else Except.ok { conn with notice_recv := true }

/-- prepare_conn from execute.c, with the C switch fallthrough made
explicit: C_DONE normalises to C_READY; a READY connection that passes
check_old_conn is kept; otherwise the connection is dropped (when a
handle exists) and a new connect is launched. -/
def prepare_conn (cf : Config) (conn : Conn) (orc : PrepOracle) :
    Except Err Conn :=
  match conn.state with
  | ConnState.C_DONE | ConnState.C_READY =>
    let conn := { conn with state := ConnState.C_READY }
    match check_old_conn cf conn orc with
    | Except.error e => Except.error e
    | Except.ok keep =>
      if keep then Except.ok conn
      else launch_conn (drop_conn conn) orc
  | ConnState.C_CONNECT_READ | ConnState.C_CONNECT_WRITE
  | ConnState.C_QUERY_READ | ConnState.C_QUERY_WRITE =>
    launch_conn (drop_conn conn) orc
  | ConnState.C_NONE => launch_conn conn orc

/-- another_result from execute.c: process one PQgetResult outcome; the
returned Bool is the C return value (true = maybe more results). -/
def another_result (conn : Conn) (r : Option PGresult) :
    Except Err (Conn × Bool) :=
  match r with
  | none =>
    if conn.tuning then Except.ok ({ conn with state := ConnState.C_READY }, false)
    else Except.ok ({ conn with state := ConnState.C_DONE }, false)
  | some res =>
    match res.status with
    | ExecStatus.PGRES_TUPLES_OK =>
      if conn.res.isSome then Except.error Err.doubleResult
      else Except.ok ({ conn with res := some res }, true)
    | ExecStatus.PGRES_COMMAND_OK => Except.ok (conn, true)
    | ExecStatus.PGRES_FATAL_ERROR => Except.error Err.remoteFatal
    | ExecStatus.PGRES_OTHER => Except.error Err.unexpectedResult

/-- The drain loop in handle_conn (C_QUERY_READ): rs are the results
PQgetResult delivers before PQisBusy; complete signals the final NULL
result (connection finished). -/
def drain_results (conn : Conn) (rs : List PGresult) (complete : Bool) :
    Except Err Conn :=
  match rs with
  | [] =>
    if complete then
      Except.ok { conn with
        state := if conn.tuning then ConnState.C_READY else ConnState.C_DONE }
    else Except.ok conn
  | r :: rest => do
    let (conn, _) ← another_result conn (some r)
    drain_results conn rest complete

/-- One socket readiness event, per connection state kind.  PollRes
FAILED covers both PGRES_POLLING_FAILED and PGRES_POLLING_ACTIVE, which
execute.c treats identically. -/
inductive PollRes
  | WRITING
  | READING
  | OK
  | FAILED
deriving DecidableEq, Repr

/-- Network event delivered to handle_conn for one ready socket. -/
inductive NetEvent
  | pollEv (r : PollRes)
  | flushEv (r : Int)
  | readEv (consume_ok : Bool) (rs : List PGresult) (complete : Bool)

/-- handle_conn from execute.c.  An event of a kind not matching the
connection state (impossible for events produced by the poll loop) is
ignored, as are events on non-I/O states. -/
def handle_conn (conn : Conn) (ev : NetEvent) : Except Err Conn :=
  match conn.state, ev with
  | ConnState.C_CONNECT_READ, NetEvent.pollEv r
  | ConnState.C_CONNECT_WRITE, NetEvent.pollEv r =>
    match r with
    | PollRes.WRITING => Except.ok { conn with state := ConnState.C_CONNECT_WRITE }
    | PollRes.READING => Except.ok { conn with state := ConnState.C_CONNECT_READ }
    | PollRes.OK => Except.ok { conn with state := ConnState.C_READY }
    | PollRes.FAILED => Except.error Err.connectPollFailed
  | ConnState.C_QUERY_WRITE, NetEvent.flushEv r => flush_connection conn r
  | ConnState.C_QUERY_READ, NetEvent.readEv ok rs complete =>
    if !ok then Except.error Err.consumeFailed
    else drain_results conn rs complete
  | _, _ => Except.ok conn

/-- check_timeouts from execute.c. -/
def check_timeouts (cf : Config) (conn : Conn) (now : Int) : Except Err Unit :=
  match conn.state with
  | ConnState.C_CONNECT_READ | ConnState.C_CONNECT_WRITE =>
    if cf.connect_timeout ≤ 0 then Except.ok ()
    else if now - conn.connect_time ≤ cf.connect_timeout then Except.ok ()
    else Except.error Err.connectTimeout
  | ConnState.C_QUERY_READ | ConnState.C_QUERY_WRITE =>
    if cf.query_timeout ≤ 0 then Except.ok ()
    else if now - conn.query_time ≤ cf.query_timeout then Except.ok ()
    else Except.error Err.queryTimeout
  | _ => Except.ok ()

/-- Host-side inputs of one hash query execution (SPI result): the rows
of the single hash column (none = SQL NULL), its type OID, and the
random() value for R_ANY. -/
structure TagOracle where
  rows : List (Option Int) := []
  htype : POid := POid.int4
  rnd : Nat := 0

/-- The DatumGet conversion in tag_hash_partitions: each of the int2,
int4 and int8 branches stores the (sign-extended) value into a uint32,
which coincides with reduction mod 2^32; a non-integer type errors. -/
def hash_to_u32 (htype : POid) (v : Int) : Except Err Nat :=
  match htype with
  | POid.int2 | POid.int4 | POid.int8 => Except.ok (toU32 v)
  | POid.other => Except.error Err.hashBadType

/-- The partition index a hash value routes to (hashval &= part_mask),
and the conn_list index behind it (part_map[hashval]). -/
def routeOf (cl : Cluster) (v : Int) : Nat :=
  cl.part_map.getD (toU32 v &&& cl.part_mask) 0

/-- The row loop of tag_hash_partitions. -/
def tag_hash_rows (cl : Cluster) (htype : POid) (tag : Int) :
    List (Option Int) → Except Err Cluster
  | [] => Except.ok cl
  | none :: _ => Except.error Err.hashNull
  | some v :: rest =>
    match hash_to_u32 htype v with
    | Except.error e => Except.error e
    | Except.ok _ => tag_hash_rows (tagConn cl (routeOf cl v) tag) htype tag rest

/-- tag_hash_partitions from execute.c: tag the routed partition of every
returned hash row, then apply the row count sanity check (more or fewer
than one row is only allowed for set-returning functions). -/
def tag_hash_partitions (cl : Cluster) (rows : List (Option Int))
    (htype : POid) (retset : Bool) (tag : Int) : Except Err Cluster :=
  match tag_hash_rows cl htype tag rows with
  | Except.error e => Except.error e
  | Except.ok cl =>
    if (rows.length = 0 ∨ rows.length > 1) ∧ !retset then
      Except.error Err.hashCount
    else Except.ok cl

/-- tag_run_on_partitions from execute.c. -/
def tag_run_on_partitions (func : Func) (cl : Cluster) (orc : TagOracle)
    (tag : Int) : Except Err Cluster :=
  match func.run_type with
  | RunOnType.R_HASH => tag_hash_partitions cl orc.rows orc.htype func.retset tag
  | RunOnType.R_ALL =>
    Except.ok ((List.range cl.part_count).foldl
      (fun cl i => tagConn cl (cl.part_map.getD i 0) tag) cl)
  | RunOnType.R_EXACT =>
    if func.exact_nr < 0 ∨ func.exact_nr ≥ (cl.part_count : Int) then
      Except.error Err.partOutOfRange
    else Except.ok (tagConn cl (cl.part_map.getD func.exact_nr.toNat 0) tag)
  | RunOnType.R_ANY =>
    Except.ok (tagConn cl (cl.part_map.getD (orc.rnd &&& cl.part_mask) 0) tag)

/-- get_int from execute.c. -/
def get_int (oid : POid) (v : Option Int) : Except Err Int :=
  match v with
  | none => Except.error Err.nullValue
  | some x =>
    match oid with
    | POid.int2 | POid.int4 | POid.int8 => Except.ok x
    | POid.other => Except.error Err.expectedIntArg

/-- Element (values[row], nulls[row]) of a DatumArray; reading past the
end of the array (undefined in C) yields a junk element. -/
def elemAt (da : Option DatumArray) (row : Nat) : Elem :=
  (da.getD { values := [] }).values.getD row (0, true)

/-- split_value from execute.c: allocate the per-argument build states on
first use, then append the row elements of every split argument. -/
def split_value (func : Func) (arrays : List (Option DatumArray))
    (conn : Conn) (row : Nat) : Conn :=
  let b := conn.bstate.getD (List.replicate func.arg_count [])
  let b := (List.range func.arg_count).foldl
    (fun acc col =>
      if isSplitArg func col then
        acc.set col (acc.getD col [] ++ [elemAt (arrays.getD col none) row])
      else acc) b
  { conn with bstate := some b }

/-- The row loop of new_split_args.  Each SQL row carries (index, hash);
both columns go through get_int and a uint32 conversion.  The row index
passed to split_value is computed as the C uint32 subtraction idx - 1. -/
def new_split_rows (func : Func) (arrays : List (Option DatumArray))
    (oid1 oid2 : POid) (cl : Cluster) :
    List (Option Int × Option Int) → Except Err Cluster
  | [] => Except.ok cl
  | (c1, c2) :: rest =>
    match get_int oid1 c1 with
    | Except.error e => Except.error e
    | Except.ok iv =>
      match get_int oid2 c2 with
      | Except.error e => Except.error e
      | Except.ok hv =>
        let idx := toU32 iv
        let part := toU32 hv &&& cl.part_mask
        let j := cl.part_map.getD part 0
        let conn := connAt cl j
        if toU32 conn.run_tag = idx then
          new_split_rows func arrays oid1 oid2 cl rest
        else
          let conn := { conn with run_tag := toI32 idx }
          let conn := split_value func arrays conn ((idx + (2 ^ 32 - 1)) % 2 ^ 32)
          new_split_rows func arrays oid1 oid2 (setConn cl j conn) rest

/-- new_split_args from execute.c: all hashes computed by one query. -/
def new_split_args (func : Func) (cl : Cluster)
    (arrays : List (Option DatumArray)) (oid1 oid2 : POid)
    (rows : List (Option Int × Option Int)) : Except Err Cluster :=
  new_split_rows func arrays oid1 oid2 cl rows

/-- The body of one old_split_args iteration: tag the run-on partitions
with my_tag = row + 1, then hand the row elements to every connection
carrying my_tag. -/
def old_split_step (func : Func) (arrays : List (Option DatumArray))
    (orc : Nat → TagOracle) (cl : Cluster) (row : Nat) :
    Except Err Cluster :=
  let my_tag : Int := (row : Int) + 1
  match tag_run_on_partitions func cl (orc row) my_tag with
  | Except.error e => Except.error e
  | Except.ok cl =>
    let conns := cl.conns.map
      (fun conn => if conn.run_tag = my_tag then split_value func arrays conn row
                   else conn)
    Except.ok { cl with conns := conns }

/-- old_split_args from execute.c: one hash evaluation per element row. -/
def old_split_args (func : Func) (cl : Cluster)
    (arrays : List (Option DatumArray)) (orc : Nat → TagOracle)
    (split_array_len : Nat) : Except Err Cluster :=
  (List.range split_array_len).foldlM (old_split_step func arrays orc) cl

/-- A caller-supplied array argument before deconstruction: dimension
count and elements. -/
structure ArrayInput where
  ndim : Nat := 1
  elems : List Elem := []
deriving DecidableEq, Repr

/-- The function call arguments prepare_and_tag_partitions reads: for
each declared argument, the array value when present (none = SQL NULL).
Non-split argument slots are never read by this code. -/
structure FCInfo where
  args : List (Option ArrayInput) := []
deriving DecidableEq, Repr

/-- make_datum_array from execute.c: a NULL array deconstructs to an
empty DatumArray. -/
def make_datum_array (v : Option ArrayInput) : DatumArray :=
  match v with
  | none => { values := [] }
  | some a => { values := a.elems }

/-- The first loop of prepare_and_tag_partitions: deconstruct the split
arrays, rejecting multi-dimensional ones and length mismatches.  Returns
the per-argument arrays, the common length and the split array count. -/
def collect_split_arrays (func : Func) (fc : FCInfo) :
    Except Err (List (Option DatumArray) × Option Nat × Nat) :=
  (List.range func.arg_count).foldlM
    (fun acc i => do
      let (arrays, len, count) := acc
      if !isSplitArg func i then
        Except.ok (arrays ++ [none], len, count)
      else do
        let v := (fc.args.getD i none)
        match v with
        | some a =>
          if a.ndim > 1 then Except.error Err.splitMultiDim else Except.ok ()
        | none => Except.ok ()
        let da := make_datum_array v
        match len with
        | none => Except.ok (arrays ++ [some da], some da.values.length, count + 1)
        | some l =>
          if da.values.length ≠ l then Except.error Err.splitLengths
          else Except.ok (arrays ++ [some da], some l, count + 1))
    ([], none, 0)

/-- The final loop of prepare_and_tag_partitions: each tagged connection
materialises its build states into split_params (non-split slots hold
the null sentinel). -/
def materialize_split_params (func : Func) (cl : Cluster) : Cluster :=
  let conns := cl.conns.map (fun conn =>
    if conn.run_tag = 0 then conn
    else
      let b := conn.bstate.getD (List.replicate func.arg_count [])
      { conn with split_params := some ((List.range func.arg_count).map
          (fun col => if isSplitArg func col then some (b.getD col []) else none)) })
  { cl with conns := conns }

/-- Oracle inputs for one prepare_and_tag_partitions call: the hash query
results for the non-split call, for each fallback-path row, and the rows
produced by the optimized single split query together with their column
type OIDs. -/
structure SplitOracle where
  tagOr : TagOracle := {}
  oldOr : Nat → TagOracle := fun _ => {}
  newRows : List (Option Int × Option Int) := []
  oid1 : POid := POid.int4
  oid2 : POid := POid.int4

/-- prepare_and_tag_partitions from execute.c. -/
def prepare_and_tag_partitions (func : Func) (fc : FCInfo) (cl : Cluster)
    (orc : SplitOracle) : Except Err Cluster := do
  let (arrays, len, count) ← collect_split_arrays func fc
  if count = 0 then
    tag_run_on_partitions func cl orc.tagOr 1
  else do
    let cl ←
      if func.new_split then
        new_split_args func cl arrays orc.oid1 orc.oid2 orc.newRows
      else
        old_split_args func cl arrays orc.oldOr (len.getD 0)
    Except.ok (materialize_split_params func cl)

/-- An I/O state: the poll loop registers interest for it; other states
are skipped. -/
def isIOState (s : ConnState) : Bool :=
  match s with
  | ConnState.C_CONNECT_READ | ConnState.C_CONNECT_WRITE
  | ConnState.C_QUERY_READ | ConnState.C_QUERY_WRITE => true
  | _ => false

/-- One drive loop iteration's oracle: the clock reading, the readiness
events per connection index (events = none models poll() returning 0 or
EINTR), and the send_query oracle for connections found C_READY. -/
structure Round where
  now : Int := 0
  events : Option (Nat → Option NetEvent) := none
  send : Nat → SendOracle := fun _ => {}

/-- The second half of poll_conns: advance every armed connection in an
I/O state whose socket reported an event. -/
def poll_conns_round (cl : Cluster) (evs : Nat → Option NetEvent) :
    Except Err Cluster :=
  (List.range cl.conns.length).foldlM
    (fun cl i =>
      let conn := connAt cl i
      if conn.run_tag ≠ 0 ∧ isIOState conn.state then
        match evs i with
        | some ev => do
          let conn ← handle_conn conn ev
          Except.ok (setConn cl i conn)
        | none => Except.ok cl
      else Except.ok cl) cl

/-- The recheck loop of remote_execute: submit on fresh C_READY
connections, recount pending, and enforce timeouts, per armed
connection. -/
def recheck_round (cf : Config) (func : Func) (cl : Cluster) (rd : Round) :
    Except Err (Cluster × Nat) :=
  (List.range cl.conns.length).foldlM
    (fun acc i => do
      let (cl, pending) := acc
      let conn := connAt cl i
      if conn.run_tag = 0 then Except.ok acc
      else do
        let conn ←
          if conn.state = ConnState.C_READY then
            send_query cf func conn (rd.send i)
          else Except.ok conn
        let cl := setConn cl i conn
        let pending := if conn.state ≠ ConnState.C_DONE then pending + 1 else pending
        let _ ← check_timeouts cf conn rd.now
        Except.ok (cl, pending))
    (cl, 0)

/-- The while-pending drive loop of remote_execute, fuelled by the finite
round list; none means the supplied rounds ran out before completion. -/
def drive (cf : Config) (func : Func) :
    Cluster → List Round → Nat → Option (Except Err Cluster)
  | cl, _, 0 => some (Except.ok cl)
  | _, [], _ + 1 => none
  | cl, rd :: rds, pending + 1 =>
    match rd.events with
    | none => drive cf func cl rds (pending + 1)
    | some evs =>
      match poll_conns_round cl evs with
      | Except.error e => some (Except.error e)
      | Except.ok cl =>
        match recheck_round cf func cl rd with
        | Except.error e => some (Except.error e)
        | Except.ok (cl, pending) => drive cf func cl rds pending

/-- The final validation loop of remote_execute (lines 627-651): reject
run_tag/result mismatches, unfinished connections, lost results and
non-TUPLES_OK statuses, and total the row counts of armed connections. -/
def validate_results : List Conn → Except Err Nat
  | [] => Except.ok 0
  | conn :: rest =>
    if (conn.run_tag ≠ 0 ∨ conn.res.isSome) ∧ ¬(conn.run_tag ≠ 0 ∧ conn.res.isSome) then
      Except.error Err.runTagResMismatch
    else if conn.run_tag = 0 then validate_results rest
    else if conn.state ≠ ConnState.C_DONE then Except.error Err.unfinishedConn
    else
      match conn.res with
      | none => Except.error Err.lostResult
      | some r =>
        if r.status ≠ ExecStatus.PGRES_TUPLES_OK then Except.error Err.remoteErrorResult
        else
          match validate_results rest with
          | Except.error e => Except.error e
          | Except.ok t => Except.ok (r.ntuples + t)

/-- Oracle inputs for one remote_execute call: prepare/send oracles for
the priming pass and the drive loop rounds. -/
structure ExecOracle where
  prep : Nat → PrepOracle := fun _ => {}
  send0 : Nat → SendOracle := fun _ => {}
  rounds : List Round := []

/-- The priming pass of remote_execute: prepare every armed connection
and submit at once on those already C_READY, counting them pending. -/
def prime_conns (cf : Config) (func : Func) (cl : Cluster) (orc : ExecOracle) :
    Except Err (Cluster × Nat) :=
  (List.range cl.conns.length).foldlM
    (fun acc i => do
      let (cl, pending) := acc
      let conn := connAt cl i
      if conn.run_tag = 0 then Except.ok acc
      else do
        let conn ← prepare_conn cf conn (orc.prep i)
        let conn ←
          if conn.state = ConnState.C_READY then
            send_query cf func conn (orc.send0 i)
          else Except.ok conn
        Except.ok (setConn cl i conn, pending + 1))
    (cl, 0)

/-- remote_execute from execute.c: prime and submit, drive to completion,
validate, and accumulate the row total. -/
def remote_execute (cf : Config) (func : Func) (cl : Cluster)
    (orc : ExecOracle) : Option (Except Err Cluster) :=
  match prime_conns cf func cl orc with
  | Except.error e => some (Except.error e)
  | Except.ok (cl, pending) =>
    match drive cf func cl orc.rounds pending with
    | none => none
    | some (Except.error e) => some (Except.error e)
    | some (Except.ok cl) =>
      match validate_results cl.conns with
      | Except.error e => some (Except.error e)
      | Except.ok tot => some (Except.ok { cl with ret_total := cl.ret_total + tot })

/-- plproxy_clean_results from execute.c. -/
def plproxy_clean_results (cl : Cluster) : Cluster :=
  let conns := cl.conns.map (fun conn =>
    { conn with res := none, pos := 0, run_tag := 0, bstate := none })
  { cl with ret_total := 0, ret_cur_conn := 0, conns := conns }

/-- Oracle inputs of one plproxy_exec call. -/
structure CallOracle where
  split : SplitOracle := {}
  exec : ExecOracle := {}

/-- The try-block of plproxy_exec: set busy, clean old results, tag
partitions, bind parameters and execute.  prepare_query_parameters only
fills the per-connection parameter vectors, which lie outside the
modelled state, so no separate step appears between tagging and
execution.  On an error the catch block clears busy, issues cancels and
applies plproxy_clean_results to the (unmodelled) state at the throw
point before re-raising. -/
def plproxy_exec_model (func : Func) (fc : FCInfo) (cl : Cluster)
    (orc : CallOracle) : Option (Except Err Cluster) :=
  let cl := { cl with busy := true }
  let cl := plproxy_clean_results cl
  match prepare_and_tag_partitions func fc cl orc.split with
  | Except.error e => some (Except.error e)
  | Except.ok cl =>
    match remote_execute cl.config func cl orc.exec with
    | none => none
    | some (Except.error e) => some (Except.error e)
    | some (Except.ok cl) => some (Except.ok { cl with busy := false })

/-! ### List helper lemmas -/

lemma getD_map_eq {α β : Type} (f : α → β) (l : List α) (i : Nat) (d : α) :
    (l.map f).getD i (f d) = f (l.getD i d) := by
  induction l generalizing i with
  | nil => simp [List.getD]
  | cons a as ih =>
    cases i with
    | zero => simp [List.getD]
    | succ n => simp only [List.map_cons, List.getD_cons_succ]; exact ih n

lemma map_set_comm {α : Type} (f : α → α) (l : List α) (j : Nat) (a : α) :
    (l.set j a).map f = (l.map f).set j (f a) := by
  induction l generalizing j with
  | nil => simp
  | cons x xs ih =>
    cases j with
    | zero => simp
    | succ n => simp [List.set, ih n]

lemma map_eq_self_of {α : Type} (f : α → α) (l : List α)
    (h : ∀ x ∈ l, f x = x) : l.map f = l := by
  induction l with
  | nil => rfl
  | cons x xs ih =>
    simp only [List.map_cons]
    rw [h x (List.mem_cons_self x xs), ih (fun y hy => h y (List.mem_cons_of_mem x hy))]

lemma getD_set_self {α : Type} (l : List α) (j : Nat) (a d : α)
    (h : j < l.length) : (l.set j a).getD j d = a := by
  induction l generalizing j with
  | nil => simp at h
  | cons x xs ih =>
    cases j with
    | zero => simp [List.getD]
    | succ n =>
      simp only [List.length_cons, Nat.succ_lt_succ_iff] at h
      simpa [List.set, List.getD] using ih n h

lemma getD_set_ne {α : Type} (l : List α) (i j : Nat) (a d : α)
    (h : i ≠ j) : (l.set j a).getD i d = l.getD i d := by
  induction l generalizing i j with
  | nil => simp
  | cons x xs ih =>
    cases j with
    | zero =>
      cases i with
      | zero => exact absurd rfl h
      | succ m => simp [List.set, List.getD]
    | succ n =>
      cases i with
      | zero => simp [List.set, List.getD]
      | succ m => simpa [List.set, List.getD] using ih m n (fun hc => h (by omega))

lemma getD_lt_of_mem_lt (l : List Nat) (n : Nat)
    (hl : ∀ p ∈ l, p < n) (h0 : 0 < n) (i : Nat) : l.getD i 0 < n := by
  rcases h : l[i]? with _ | p
  · simp [List.getD_eq_getElem?_getD, h, h0]
  · have := hl p (List.getElem?_mem h)
    simp [List.getD_eq_getElem?_getD, h, this]

/-! ### Facts about hash routing (claims C9, C2, C7) -/

/-- C9: for every hash value of an integer type, including negative
values, the uint32 conversion followed by the part_mask AND yields an
index below part_count (a power of two), so the part_map access in
tag_hash_partitions is in bounds whenever part_map has part_count
entries. -/
theorem hash_route_in_bounds (h : Int) (k : Nat) (cl : Cluster)
    (hpc : cl.part_count = 2 ^ k) (hm : cl.part_mask = cl.part_count - 1) :
    toU32 h &&& cl.part_mask < cl.part_count
    ∧ (cl.part_map.length = cl.part_count →
        toU32 h &&& cl.part_mask < cl.part_map.length) := by
  have h1 : toU32 h &&& cl.part_mask ≤ cl.part_mask := Nat.and_le_right
  have hpos : 0 < cl.part_count := by
    rw [hpc]; exact Nat.pos_pow_of_pos k (by omega)
  have h2 : cl.part_mask < cl.part_count := by omega
  exact ⟨by omega, fun hlen => by omega⟩

/-- Fixture cluster for in-bounds witness. -/
def CL9 : Cluster :=
  { part_count := 4, part_mask := 3, part_map := [0, 1, 2, 3],
    conns := [{}, {}, {}, {}] }

/-- Witness for hash_route_in_bounds at hash value -123 on a 4-partition
cluster. -/
theorem hash_route_in_bounds_witness :
    toU32 (-123) &&& CL9.part_mask < CL9.part_count
    ∧ (CL9.part_map.length = CL9.part_count →
        toU32 (-123) &&& CL9.part_mask < CL9.part_map.length) :=
  hash_route_in_bounds (-123) 2 CL9 (by decide) (by decide)

lemma conns_length_tagConn (cl : Cluster) (i : Nat) (t : Int) :
    (tagConn cl i t).conns.length = cl.conns.length := by
  simp [tagConn, setConn]

lemma routeOf_tagConn (cl : Cluster) (i : Nat) (t : Int) (v : Int) :
    routeOf (tagConn cl i t) v = routeOf cl v := rfl

lemma connAt_tagConn_self (cl : Cluster) (j : Nat) (t : Int)
    (h : j < cl.conns.length) :
    connAt (tagConn cl j t) j = { connAt cl j with run_tag := t } := by
  exact getD_set_self _ _ _ _ h

lemma connAt_tagConn_ne (cl : Cluster) (i j : Nat) (t : Int) (h : i ≠ j) :
    connAt (tagConn cl j t) i = connAt cl i := by
  exact getD_set_ne _ _ _ _ _ h

/-- tag_hash_rows, on success, tags exactly the connections routed to by
the row values and leaves all other connections untouched. -/
lemma tag_hash_rows_ok (htype : POid) (tag : Int) (rows : List (Option Int)) :
    ∀ cl cl' : Cluster,
    tag_hash_rows cl htype tag rows = Except.ok cl' →
    (∀ p ∈ cl.part_map, p < cl.conns.length) → 0 < cl.conns.length →
    (∀ v : Int, some v ∈ rows → (connAt cl' (routeOf cl v)).run_tag = tag)
    ∧ (∀ j : Nat, (∀ v : Int, some v ∈ rows → routeOf cl v ≠ j) →
        connAt cl' j = connAt cl j) := by
  induction rows with
  | nil =>
    intro cl cl' h _ _
    simp only [tag_hash_rows] at h
    injection h with h
    subst h
    exact ⟨fun v hv => by simp at hv, fun j _ => rfl⟩
  | cons r rest ih =>
    intro cl cl' h hwf h0
    cases r with
    | none => simp [tag_hash_rows] at h
    | some v =>
      rcases hh : hash_to_u32 htype v with e | u
      · simp only [tag_hash_rows, hh] at h
        exact Except.noConfusion h
      · simp only [tag_hash_rows, hh] at h
        have hwf' : ∀ p ∈ (tagConn cl (routeOf cl v) tag).part_map,
            p < (tagConn cl (routeOf cl v) tag).conns.length := by
          simpa [tagConn, setConn] using hwf
        have h0' : 0 < (tagConn cl (routeOf cl v) tag).conns.length := by
          simpa [tagConn, setConn] using h0
        obtain ⟨ih1, ih2⟩ := ih (tagConn cl (routeOf cl v) tag) cl' h hwf' h0'
        simp only [routeOf_tagConn] at ih1 ih2
        constructor
        · intro w hw
          rcases List.mem_cons.mp hw with hw | hw
          · injection hw with hw
            subst hw
            by_cases hc : ∀ u : Int, some u ∈ rest → routeOf cl u ≠ routeOf cl w
            · have hfr := ih2 (routeOf cl w) hc
              rw [hfr]
              have hlt : routeOf cl w < cl.conns.length :=
                getD_lt_of_mem_lt _ _ hwf h0 _
              rw [connAt_tagConn_self _ _ _ hlt]
            · push_neg at hc
              obtain ⟨u, hu, hru⟩ := hc
              have := ih1 u hu
              rwa [hru] at this
          · exact ih1 w hw
        · intro j hj
          have h1 := ih2 j (fun u hu => hj u (List.mem_cons_of_mem _ hu))
          have h2 : routeOf cl v ≠ j := hj v (List.mem_cons_self _ _)
          rw [h1]
          exact connAt_tagConn_ne _ _ _ _ (fun hc => h2 hc.symm)

/-- C2: on every successful RUN ON HASH tagging pass, the partition
routed to by each returned hash value h, namely part_map[u32(h) &
part_mask], carries the given tag afterwards, and every connection not
routed to by any returned value is bitwise unchanged. -/
theorem tag_hash_routing (cl cl' : Cluster) (rows : List (Option Int))
    (htype : POid) (retset : Bool) (tag : Int)
    (hwf : ∀ p ∈ cl.part_map, p < cl.conns.length) (h0 : 0 < cl.conns.length)
    (h : tag_hash_partitions cl rows htype retset tag = Except.ok cl') :
    (∀ v : Int, some v ∈ rows → (connAt cl' (routeOf cl v)).run_tag = tag)
    ∧ (∀ j : Nat, (∀ v : Int, some v ∈ rows → routeOf cl v ≠ j) →
        connAt cl' j = connAt cl j) := by
  rcases hr : tag_hash_rows cl htype tag rows with e | cl0
  · simp [tag_hash_partitions, hr] at h
  · simp only [tag_hash_partitions, hr] at h
    split at h
    · exact Except.noConfusion h
    · injection h with h
      subst h
      exact tag_hash_rows_ok htype tag rows cl cl0 hr hwf h0

/-- Fixture cluster for the hash routing witness. -/
def CL2 : Cluster :=
  { part_count := 4, part_mask := 3, part_map := [0, 1, 2, 3],
    conns := [{}, {}, {}, {}] }

/-- Expected tagging outcome for hash value 6 (6 AND 3 = 2). -/
def CL2res : Cluster :=
  { CL2 with conns := [{}, {}, { run_tag := 1 }, {}] }

/-- Witness for tag_hash_routing: hash value 6 tags partition 2 and
leaves connection 0 untouched. -/
theorem tag_hash_routing_witness :
    (connAt CL2res (routeOf CL2 6)).run_tag = 1
    ∧ connAt CL2res 0 = connAt CL2 0 := by
  have h := tag_hash_routing CL2 CL2res [some 6] POid.int4 false 1
    (by decide) (by decide) (by decide)
  refine ⟨h.1 6 (by simp), h.2 0 ?_⟩
  intro v hv
  simp only [List.mem_singleton, Option.some.injEq] at hv
  subst hv
  decide

lemma hash_to_u32_int (htype : POid) (hint : htype ≠ POid.other) (v : Int) :
    hash_to_u32 htype v = Except.ok (toU32 v) := by
  cases htype <;> simp [hash_to_u32] at hint ⊢

/-- On a NULL row, the tagging loop raises the NULL error (rows before
the NULL one are processed first, so the hash type must be integral). -/
lemma tag_hash_rows_null (htype : POid) (tag : Int)
    (hint : htype ≠ POid.other) (rows : List (Option Int)) :
    ∀ cl : Cluster, none ∈ rows →
    tag_hash_rows cl htype tag rows = Except.error Err.hashNull := by
  induction rows with
  | nil => intro cl h; simp at h
  | cons r rest ih =>
    intro cl hm
    cases r with
    | none => simp [tag_hash_rows]
    | some v =>
      have hmem : none ∈ rest := by simpa using hm
      simp [tag_hash_rows, hash_to_u32_int htype hint v, ih _ hmem]

/-- With integral type and no NULL rows the tagging loop succeeds. -/
lemma tag_hash_rows_total (htype : POid) (tag : Int)
    (hint : htype ≠ POid.other) (rows : List (Option Int))
    (hnn : ∀ r ∈ rows, r ≠ none) :
    ∀ cl : Cluster, ∃ cl0, tag_hash_rows cl htype tag rows = Except.ok cl0 := by
  induction rows with
  | nil => intro cl; exact ⟨cl, rfl⟩
  | cons r rest ih =>
    intro cl
    cases r with
    | none => exact absurd rfl (hnn none (List.mem_cons_self _ _))
    | some v =>
      have hnn' : ∀ r ∈ rest, r ≠ none :=
        fun r hr => hnn r (List.mem_cons_of_mem _ hr)
      obtain ⟨cl0, hcl0⟩ := ih hnn' (tagConn cl (routeOf cl v) tag)
      exact ⟨cl0, by simp [tag_hash_rows, hash_to_u32_int htype hint v, hcl0]⟩

/-- C7: a NULL hash value is fatal; for a non-set-returning function a
hash row count other than one is fatal; a set-returning function
tolerates any row count, each row tagging its routed partition. -/
theorem tag_hash_cardinality :
    (∀ (cl : Cluster) (rows : List (Option Int)) (htype : POid)
       (retset : Bool) (tag : Int), htype ≠ POid.other → none ∈ rows →
       tag_hash_partitions cl rows htype retset tag = Except.error Err.hashNull)
    ∧ (∀ (cl : Cluster) (rows : List (Option Int)) (htype : POid) (tag : Int),
       htype ≠ POid.other → (∀ r ∈ rows, r ≠ none) → rows.length ≠ 1 →
       tag_hash_partitions cl rows htype false tag = Except.error Err.hashCount)
    ∧ (∀ (cl : Cluster) (rows : List (Option Int)) (htype : POid) (tag : Int),
       htype ≠ POid.other → (∀ r ∈ rows, r ≠ none) →
       (∀ p ∈ cl.part_map, p < cl.conns.length) → 0 < cl.conns.length →
       ∃ cl', tag_hash_partitions cl rows htype true tag = Except.ok cl'
         ∧ ∀ v : Int, some v ∈ rows →
             (connAt cl' (routeOf cl v)).run_tag = tag) := by
  refine ⟨?_, ?_, ?_⟩
  · intro cl rows htype retset tag hint hmem
    simp [tag_hash_partitions, tag_hash_rows_null htype tag hint rows cl hmem]
  · intro cl rows htype tag hint hnn hlen
    obtain ⟨cl0, hcl0⟩ := tag_hash_rows_total htype tag hint rows hnn cl
    simp [tag_hash_partitions, hcl0]
    intro hne
    have := List.length_pos.mpr hne
    omega
  · intro cl rows htype tag hint hnn hwf h0
    obtain ⟨cl0, hcl0⟩ := tag_hash_rows_total htype tag hint rows hnn cl
    refine ⟨cl0, by simp [tag_hash_partitions, hcl0], ?_⟩
    exact (tag_hash_rows_ok htype tag rows cl cl0 hcl0 hwf h0).1

/-- Fixture cluster for the cardinality witness. -/
def CL7 : Cluster :=
  { part_count := 2, part_mask := 1, part_map := [0, 1], conns := [{}, {}] }

/-- Witness for tag_hash_cardinality: a NULL row is fatal, two rows are
fatal without retset, and two rows with retset tag both routed
partitions. -/
theorem tag_hash_cardinality_witness :
    tag_hash_partitions CL7 [some 1, none] POid.int4 false 5 =
      Except.error Err.hashNull
    ∧ tag_hash_partitions CL7 [some 1, some 2] POid.int4 false 5 =
      Except.error Err.hashCount
    ∧ ∃ cl', tag_hash_partitions CL7 [some 1, some 2] POid.int4 true 5 =
        Except.ok cl'
      ∧ ∀ v : Int, some v ∈ [some (1 : Int), some 2] →
          (connAt cl' (routeOf CL7 v)).run_tag = 5 := by
  refine ⟨?_, ?_, ?_⟩
  · exact tag_hash_cardinality.1 CL7 _ POid.int4 false 5 (by decide) (by decide)
  · exact tag_hash_cardinality.2.1 CL7 _ POid.int4 5 (by decide) (by decide)
      (by decide)
  · exact tag_hash_cardinality.2.2 CL7 _ POid.int4 5 (by decide) (by decide)
      (by decide) (by decide)

/-! ### The final validation pass (claim C1) -/

/-- On a successful validation pass, every listed connection satisfies
the armed/result pairing. -/
lemma validate_ok_mem (conns : List Conn) :
    ∀ n, validate_results conns = Except.ok n →
    ∀ conn ∈ conns,
      ((conn.run_tag ≠ 0) ↔ conn.res.isSome = true)
      ∧ (conn.run_tag ≠ 0 → conn.state = ConnState.C_DONE ∧
          ∃ r, conn.res = some r ∧ r.status = ExecStatus.PGRES_TUPLES_OK) := by
  induction conns with
  | nil => intro n h conn hc; simp at hc
  | cons c rest ih =>
    intro n h conn hc
    simp only [validate_results] at h
    by_cases h1 : (c.run_tag ≠ 0 ∨ c.res.isSome) ∧ ¬(c.run_tag ≠ 0 ∧ c.res.isSome = true)
    · rw [if_pos h1] at h
      exact Except.noConfusion h
    · rw [if_neg h1] at h
      by_cases h2 : c.run_tag = 0
      · rw [if_pos h2] at h
        rcases List.mem_cons.mp hc with rfl | hc
        · refine ⟨?_, fun hrt => absurd h2 hrt⟩
          constructor
          · intro hrt; exact absurd h2 hrt
          · intro hs
            exfalso
            exact h1 ⟨Or.inr hs, fun hb => hb.1 h2⟩
        · exact ih n h conn hc
      · rw [if_neg h2] at h
        by_cases h3 : c.state ≠ ConnState.C_DONE
        · rw [if_pos h3] at h
          exact Except.noConfusion h
        · rw [if_neg h3] at h
          push_neg at h3
          rcases hres : c.res with _ | r
          · simp only [hres] at h
            exact Except.noConfusion h
          · simp only [hres] at h
            by_cases h4 : r.status ≠ ExecStatus.PGRES_TUPLES_OK
            · rw [if_pos h4] at h
              exact Except.noConfusion h
            · rw [if_neg h4] at h
              push_neg at h4
              rcases hrest : validate_results rest with e | t
              · rw [hrest] at h
                exact Except.noConfusion h
              · rw [hrest] at h
                rcases List.mem_cons.mp hc with rfl | hc
                · exact ⟨by simp [hres, h2], fun _ => ⟨h3, r, hres, h4⟩⟩
                · exact ih t hrest conn hc

/-- A connection whose run_tag and result presence disagree forces the
validation pass to fail. -/
lemma validate_err_mismatch (conns : List Conn) :
    (∃ conn ∈ conns, ¬((conn.run_tag ≠ 0) ↔ conn.res.isSome = true)) →
    ∃ e, validate_results conns = Except.error e := by
  induction conns with
  | nil => rintro ⟨c, hc, _⟩; simp at hc
  | cons c rest ih =>
    rintro ⟨conn, hc, hmis⟩
    simp only [validate_results]
    by_cases h1 : (c.run_tag ≠ 0 ∨ c.res.isSome) ∧ ¬(c.run_tag ≠ 0 ∧ c.res.isSome = true)
    · exact ⟨_, by rw [if_pos h1]⟩
    · rw [if_neg h1]
      rcases List.mem_cons.mp hc with rfl | hc
      · exfalso
        rcases Classical.em (conn.run_tag ≠ 0) with hr | hr
        · have hs : ¬conn.res.isSome = true := fun hs => hmis ⟨fun _ => hs, fun _ => hr⟩
          exact h1 ⟨Or.inl hr, fun hb => hs hb.2⟩
        · have hs : conn.res.isSome = true := by
            by_contra hs
            exact hmis ⟨fun h => absurd h hr, fun h => absurd h hs⟩
          exact h1 ⟨Or.inr hs, fun hb => hr hb.1⟩
      · obtain ⟨e, he⟩ := ih ⟨conn, hc, hmis⟩
        by_cases h2 : c.run_tag = 0
        · rw [if_pos h2]
          exact ⟨e, he⟩
        · rw [if_neg h2]
          by_cases h3 : c.state ≠ ConnState.C_DONE
          · exact ⟨_, by rw [if_pos h3]⟩
          · rw [if_neg h3]
            rcases hres : c.res with _ | r
            · exact ⟨_, rfl⟩
            · by_cases h4 : r.status = ExecStatus.PGRES_TUPLES_OK
              · exact ⟨e, by simp [h4, he]⟩
              · exact ⟨Err.remoteErrorResult, by simp [h4]⟩

/-- C1: when the final validation pass of remote_execute succeeds, armed
connections and held results pair up totally and injectively: every
armed connection is C_DONE with exactly one TUPLES_OK result, every
connection with a result is armed, any disagreement between run_tag and
result presence fails the pass, and a second tuple result on one
connection is rejected as a double result when it arrives. -/
theorem remote_validate_pairing (conns : List Conn) (n : Nat)
    (h : validate_results conns = Except.ok n) :
    (∀ conn ∈ conns,
      ((conn.run_tag ≠ 0) ↔ conn.res.isSome = true)
      ∧ (conn.run_tag ≠ 0 → conn.state = ConnState.C_DONE ∧
          ∃ r, conn.res = some r ∧ r.status = ExecStatus.PGRES_TUPLES_OK))
    ∧ (∀ (conns' : List Conn),
        (∃ conn ∈ conns', ¬((conn.run_tag ≠ 0) ↔ conn.res.isSome = true)) →
        ∃ e, validate_results conns' = Except.error e)
    ∧ (∀ (conn : Conn) (r : PGresult), r.status = ExecStatus.PGRES_TUPLES_OK →
        conn.res.isSome = true →
        another_result conn (some r) = Except.error Err.doubleResult) := by
  refine ⟨validate_ok_mem conns n h, validate_err_mismatch, ?_⟩
  intro conn r hst hs
  simp [another_result, hst, hs]

/-- Fixture connection for the validation witness: armed, finished, one
TUPLES_OK result of three rows. -/
def VC1 : Conn :=
  { state := ConnState.C_DONE, run_tag := 1,
    res := some { status := ExecStatus.PGRES_TUPLES_OK, ntuples := 3 } }

/-- Witness for remote_validate_pairing on a one-connection list. -/
theorem remote_validate_pairing_witness :
    (((VC1.run_tag ≠ 0) ↔ VC1.res.isSome = true)
      ∧ (VC1.run_tag ≠ 0 → VC1.state = ConnState.C_DONE ∧
          ∃ r, VC1.res = some r ∧ r.status = ExecStatus.PGRES_TUPLES_OK))
    ∧ (∃ e, validate_results [{ VC1 with res := none }] = Except.error e) := by
  have h := remote_validate_pairing [VC1] 3 (by decide)
  refine ⟨h.1 VC1 (List.mem_cons_self _ _), ?_⟩
  refine h.2.1 [{ VC1 with res := none }] ⟨{ VC1 with res := none }, List.mem_cons_self _ _, ?_⟩
  intro hiff
  have : ({ VC1 with res := none } : Conn).run_tag ≠ 0 := by decide
  have hs := hiff.mp this
  simp at hs

/-! ### Binary result format decision (claim C6) -/

/-- The return type supports binary transfer: a scalar needs its recv
function, a composite needs every column to support binary recv. -/
def ret_supports_binary (r : RetType) : Bool :=
  match r with
  | RetType.scalar has_recv => has_recv
  | RetType.composite cols => composite_use_binary cols

lemma binary_result_of_iff (cf : Config) (conn : Conn) (func : Func) :
    binary_result_of cf conn func = true ↔
    (cf.disable_binary = 0 ∧ conn.same_ver = true ∧
      ret_supports_binary func.ret = true) := by
  unfold binary_result_of ret_supports_binary
  by_cases hd : cf.disable_binary = 0 ∧ conn.same_ver = true
  · rw [if_pos hd]
    cases func.ret <;> simp [hd.1, hd.2]
  · rw [if_neg hd]
    constructor
    · intro hf
      exact absurd hf (by simp)
    · intro hcon
      exact absurd ⟨hcon.1, hcon.2.1⟩ hd

/-- C6: whenever send_query submits the remote query (rather than a
tuning query), the result format it requests is binary exactly when
binary io is enabled, the remote runs the same major.minor version, and
the return type supports binary receive. -/
theorem send_query_binary_iff (cf : Config) (func : Func) (conn : Conn)
    (orc : SendOracle) (conn' : Conn)
    (h : send_query cf func conn orc = Except.ok conn')
    (ht : conn'.tuning = false) :
    conn'.last_res_format = true ↔
    (cf.disable_binary = 0 ∧ conn'.same_ver = true ∧
      ret_supports_binary func.ret = true) := by
  simp only [send_query] at h
  rcases htc : tune_connection { conn with query_time := orc.now } orc with e | conn1
  · simp only [htc] at h
    exact Except.noConfusion h
  · simp only [htc] at h
    by_cases htun : conn1.tuning = true
    · simp only [htun, if_pos] at h
      injection h with h
      subst h
      exact absurd htun (by simp [ht])
    · simp only [htun, if_neg] at h
      cases hsend : orc.sendOk with
      | false => simp [hsend] at h
      | true =>
        simp only [hsend, Bool.not_true, Bool.false_eq_true, if_false] at h
        simp only [flush_connection] at h
        by_cases hf1 : orc.flushRes > 0
        · rw [if_pos hf1] at h
          injection h with h
          subst h
          exact binary_result_of_iff cf conn1 func
        · rw [if_neg hf1] at h
          by_cases hf2 : orc.flushRes = 0
          · rw [if_pos hf2] at h
            injection h with h
            subst h
            exact binary_result_of_iff cf conn1 func
          · rw [if_neg hf2] at h
            exact Except.noConfusion h

/-- Fixture oracle for the binary decision witness: same major.minor
remote version, no encoding divergence, flush drains fully. -/
def OR6 : SendOracle :=
  { now := 5, dst_ver := ['9', '.', '1'], local_ver := ['9', '.', '1', '.', '4'] }

/-- Fixture connection for the binary decision witness. -/
def CONN6 : Conn := { state := ConnState.C_READY }

/-- Fixture function returning a scalar with a binary recv function. -/
def FUNC6 : Func := { ret := RetType.scalar true }

/-- The connection state send_query produces on the fixture. -/
def CONN6res : Conn :=
  { state := ConnState.C_QUERY_READ, query_time := 5, same_ver := true,
    last_res_format := true }

/-- Witness for send_query_binary_iff on the fixture submission. -/
theorem send_query_binary_iff_witness :
    CONN6res.last_res_format = true ↔
    (({} : Config).disable_binary = 0 ∧ CONN6res.same_ver = true ∧
      ret_supports_binary FUNC6.ret = true) :=
  send_query_binary_iff {} FUNC6 CONN6 OR6 CONN6res (by decide) (by decide)

/-! ### prepare_conn postcondition (claim C10) -/

lemma launch_conn_ok (conn : Conn) (orc : PrepOracle) (conn' : Conn)
    (h : launch_conn conn orc = Except.ok conn') :
    conn'.state = ConnState.C_CONNECT_WRITE ∧ conn'.connect_time = orc.now
    ∧ conn'.tuning = conn.tuning ∧ conn'.notice_recv = true
    ∧ conn'.db = true := by
  unfold launch_conn at h
  cases ho1 : orc.start_ok with
  | false => simp [ho1] at h
  | true =>
    simp only [ho1, Bool.not_true, Bool.false_eq_true, if_false] at h
    cases ho2 : orc.start_status_ok with
    | false => simp [ho2] at h
    | true =>
      simp only [ho2, Bool.not_true, Bool.false_eq_true, if_false] at h
      injection h with h
      subst h
      simp

/-- C10: when prepare_conn returns without error, the connection is
either a kept healthy cached one, now C_READY and otherwise untouched,
or a freshly launched one in C_CONNECT_WRITE with connect_time set to
the current clock, tuning clear, a live handle and the notice receiver
installed.  The hypothesis reflects the program invariant that a
connection without a handle (C_NONE) has no tuning query pending. -/
theorem prepare_conn_post (cf : Config) (conn : Conn) (orc : PrepOracle)
    (conn' : Conn)
    (hnone : conn.state = ConnState.C_NONE → conn.tuning = false)
    (h : prepare_conn cf conn orc = Except.ok conn') :
    (conn'.state = ConnState.C_READY
      ∧ conn' = { conn with state := ConnState.C_READY })
    ∨ (conn'.state = ConnState.C_CONNECT_WRITE ∧ conn'.connect_time = orc.now
      ∧ conn'.tuning = false ∧ conn'.notice_recv = true ∧ conn'.db = true) := by
  cases hst : conn.state with
  | C_DONE | C_READY =>
    simp only [prepare_conn, hst] at h
    rcases hco : check_old_conn cf { conn with state := ConnState.C_READY } orc
      with e | keep
    · simp only [hco] at h
      exact Except.noConfusion h
    · simp only [hco] at h
      cases keep with
      | true =>
        simp only [if_pos] at h
        injection h with h
        subst h
        exact Or.inl ⟨rfl, rfl⟩
      | false =>
        simp only [Bool.false_eq_true, if_false] at h
        obtain ⟨h1, h2, h3, h4, h5⟩ := launch_conn_ok _ _ _ h
        exact Or.inr ⟨h1, h2, by simpa [drop_conn] using h3, h4, h5⟩
  | C_CONNECT_READ | C_CONNECT_WRITE | C_QUERY_READ | C_QUERY_WRITE =>
    simp only [prepare_conn, hst] at h
    obtain ⟨h1, h2, h3, h4, h5⟩ := launch_conn_ok _ _ _ h
    exact Or.inr ⟨h1, h2, by simpa [drop_conn] using h3, h4, h5⟩
  | C_NONE =>
    simp only [prepare_conn, hst] at h
    obtain ⟨h1, h2, h3, h4, h5⟩ := launch_conn_ok _ _ _ h
    exact Or.inr ⟨h1, h2, by rw [h3]; exact hnone hst, h4, h5⟩

/-- Fixture connection for the prepare_conn witness: a healthy cached
C_READY connection with a recent query_time. -/
def CONN10 : Conn := { state := ConnState.C_READY }

/-- Witness for prepare_conn_post: the fixture connection is kept. -/
theorem prepare_conn_post_witness :
    (CONN10.state = ConnState.C_READY
      ∧ CONN10 = { CONN10 with state := ConnState.C_READY })
    ∨ (CONN10.state = ConnState.C_CONNECT_WRITE
      ∧ CONN10.connect_time = ({ now := 7 } : PrepOracle).now
      ∧ CONN10.tuning = false ∧ CONN10.notice_recv = true
      ∧ CONN10.db = true) :=
  prepare_conn_post {} CONN10 { now := 7 } CONN10
    (fun hs => by simp [CONN10] at hs) (by decide)

/-! ### Query timeout enforcement (claim C8)

The deadline test itself (check_timeouts) behaves as specified, which
query_timeout_enforced below records.  But remote_execute only reaches
check_timeouts through its recheck loop, and that loop is skipped with
continue whenever poll_conns reports no socket event — which is exactly
the situation of a server that never answers.  The repository's own
configuration documentation promises the connection is closed when a
query result does not appear within query_timeout, so the skip is a bug
in the code; query_timeout_never_checked_when_quiet demonstrates it. -/

/-- With query_timeout = T > 0, a connection stuck in a query state is
detected by the first poll-loop timeout check falling after
query_time + T; with checks at most one tick (1 s) apart and starting no
later than query_time + T + 1, such a check exists at a clock value of at
most query_time + T + 1 and raises the query timeout there.  A
configured value of zero or less never produces a query timeout. -/
theorem query_timeout_enforced (cf : Config) (conn : Conn) (T q : Int)
    (hT : cf.query_timeout = T) (hpos : 0 < T)
    (hstate : conn.state = ConnState.C_QUERY_READ
      ∨ conn.state = ConnState.C_QUERY_WRITE)
    (hq : conn.query_time = q)
    (t : Nat → Int)
    (hgap : ∀ i, t (i + 1) ≤ t i + 1)
    (h0 : t 0 ≤ q + T + 1)
    (hunb : ∀ B : Int, ∃ i, B < t i) :
    (∃ i, q + T < t i ∧ t i ≤ q + T + 1
      ∧ check_timeouts cf conn (t i) = Except.error Err.queryTimeout)
    ∧ (∀ (cf' : Config) (c : Conn) (now : Int), cf'.query_timeout ≤ 0 →
        check_timeouts cf' c now ≠ Except.error Err.queryTimeout) := by
  constructor
  · have hex : ∃ i, q + T < t i := hunb (q + T)
    classical
    have hi := Nat.find_spec hex
    have herr : ∀ m : Int, q + T < m →
        check_timeouts cf conn m = Except.error Err.queryTimeout := by
      intro m hm
      rcases hstate with hs | hs <;>
        · simp only [check_timeouts, hs]
          rw [hT, hq, if_neg (by omega), if_neg (by omega)]
    rcases hfind : Nat.find hex with _ | j
    · rw [hfind] at hi
      exact ⟨0, hi, h0, herr _ hi⟩
    · rw [hfind] at hi
      have hj : ¬(q + T < t j) := Nat.find_min hex (by omega)
      have hg := hgap j
      exact ⟨j + 1, hi, by omega, herr _ hi⟩
  · intro cf' c now hle h1
    cases hcs : c.state <;> simp only [check_timeouts, hcs] at h1
    case C_CONNECT_READ | C_CONNECT_WRITE =>
      by_cases hc1 : cf'.connect_timeout ≤ 0
      · rw [if_pos hc1] at h1
        exact Except.noConfusion h1
      · rw [if_neg hc1] at h1
        by_cases hc2 : now - c.connect_time ≤ cf'.connect_timeout
        · rw [if_pos hc2] at h1
          exact Except.noConfusion h1
        · rw [if_neg hc2] at h1
          injection h1 with h1
          exact Err.noConfusion h1
    case C_QUERY_READ | C_QUERY_WRITE =>
      rw [if_pos hle] at h1
      exact Except.noConfusion h1
    all_goals exact Except.noConfusion h1

/-- Instance of query_timeout_enforced: T = 2, query sent at time 0,
checks at integer seconds. -/
theorem query_timeout_enforced_witness :
    (∃ i, (0 : Int) + 2 < (fun i : Nat => (i : Int)) i
      ∧ (fun i : Nat => (i : Int)) i ≤ (0 : Int) + 2 + 1
      ∧ check_timeouts { query_timeout := 2 }
          { state := ConnState.C_QUERY_READ, query_time := 0 }
          ((fun i : Nat => (i : Int)) i) = Except.error Err.queryTimeout)
    ∧ (∀ (cf' : Config) (c : Conn) (now : Int), cf'.query_timeout ≤ 0 →
        check_timeouts cf' c now ≠ Except.error Err.queryTimeout) :=
  query_timeout_enforced { query_timeout := 2 }
    { state := ConnState.C_QUERY_READ, query_time := 0 } 2 0
    (by decide) (by decide) (Or.inl rfl) rfl (fun i : Nat => (i : Int))
    (fun i => by push_cast; omega) (by norm_num)
    (fun B => ⟨B.toNat + 1, by push_cast; omega⟩)

/-- The timeout configuration of the hung-server scenario. -/
def TQcf : Config := { query_timeout := 2 }

/-- An armed connection waiting for a result since time 0. -/
def TQconn : Conn :=
  { state := ConnState.C_QUERY_READ, query_time := 0, run_tag := 1 }

/-- A cluster with one armed connection waiting on a silent server. -/
def TQcl : Cluster :=
  { config := TQcf, part_count := 1, part_mask := 0, part_map := [0],
    conns := [TQconn] }

/-- A poll tick on which no armed socket reported an event, at a clock
value far past the query deadline. -/
def TQquiet : Round := { now := 1000000, events := none }

/-- C8: the code violates the claim on a server that never answers.
Whenever poll_conns reports no socket event, remote_execute continues
its drive loop WITHOUT running check_timeouts, so arbitrarily many quiet
ticks pass with the call still pending and no query-timeout error ever
raised — even though the deadline test itself, had it been invoked,
would have fired (second conjunct: at clock 3, two past the deadline).
The claim (and the repository's configuration documentation) requires
the call to abort within one tick of exceeding query_timeout. -/
theorem query_timeout_never_checked_when_quiet :
    (∀ (cf : Config) (func : Func) (cl : Cluster) (p n : Nat),
      drive cf func cl (List.replicate n TQquiet) (p + 1) = none)
    ∧ check_timeouts TQcf TQconn 3 = Except.error Err.queryTimeout := by
  constructor
  · intro cf func cl p n
    induction n with
    | zero => rfl
    | succ n ih =>
      rw [List.replicate_succ]
      have he : (TQquiet : Round).events = none := rfl
      simp only [drive, he]
      exact ih
  · decide

/-! ### Split path equivalence (claims C3, C4) -/

lemma toU32_natCast (n : Nat) (h : n < 2 ^ 32) : toU32 (n : Int) = n := by
  unfold toU32
  rw [Int.emod_eq_of_lt (Int.natCast_nonneg n) (by exact_mod_cast h)]
  exact Int.toNat_natCast n

lemma toU32_nonneg (z : Int) (h0 : 0 ≤ z) (h1 : z < 2 ^ 32) :
    toU32 z = z.toNat := by
  unfold toU32
  rw [Int.emod_eq_of_lt h0 (by exact_mod_cast h1)]

lemma toI32_small (n : Nat) (h : n < 2 ^ 31) : toI32 n = (n : Int) := by
  simp only [toI32]
  rw [Nat.mod_eq_of_lt (show n < 2 ^ 32 by omega), if_pos h]

lemma connAt_mem_or_default (cl : Cluster) (j : Nat) :
    connAt cl j ∈ cl.conns ∨ connAt cl j = default := by
  unfold connAt
  rcases hlt : cl.conns[j]? with _ | c
  · right
    simp [List.getD_eq_getElem?_getD, hlt]
  · left
    have := List.getElem?_mem hlt
    simpa [List.getD_eq_getElem?_getD, hlt] using this

lemma split_value_run_tag (func : Func) (arrays : List (Option DatumArray))
    (conn : Conn) (row : Nat) :
    (split_value func arrays conn row).run_tag = conn.run_tag := rfl

lemma get_int_int (ht : POid) (hint : ht ≠ POid.other) (x : Int) :
    get_int ht (some x) = Except.ok x := by
  cases ht <;> simp [get_int] at hint ⊢

lemma except_bind_ok {ε α β : Type} (a : α) (f : α → Except ε β) :
    (Except.ok a >>= f) = f a := rfl

/-- The per-row state update both split paths perform at row k: tag the
routed connection with k + 1 and append the elements of row k to its
build states. -/
def split_row_update (func : Func) (arrays : List (Option DatumArray))
    (h : Nat → Int) (cl : Cluster) (k : Nat) : Cluster :=
  setConn cl (routeOf cl (h k))
    (split_value func arrays
      { connAt cl (routeOf cl (h k)) with run_tag := (k : Int) + 1 } k)

/-- One fallback-path row on a cluster whose run_tags are all at most k
resolves to: tag the routed connection with k + 1 and append row k to
it. -/
lemma old_split_step_eq (func : Func) (arrays : List (Option DatumArray))
    (orc : Nat → TagOracle) (ht : POid) (hint : ht ≠ POid.other)
    (hrt : func.run_type = RunOnType.R_HASH)
    (h : Nat → Int)
    (horc : ∀ i, (orc i).rows = [some (h i)] ∧ (orc i).htype = ht)
    (k : Nat) (cl : Cluster)
    (hinv : ∀ c ∈ cl.conns, 0 ≤ c.run_tag ∧ c.run_tag ≤ (k : Int)) :
    old_split_step func arrays orc cl k =
      Except.ok (split_row_update func arrays h cl k) := by
  obtain ⟨hrows, hty⟩ := horc k
  have htag : tag_run_on_partitions func cl (orc k) ((k : Int) + 1) =
      Except.ok (tagConn cl (routeOf cl (h k)) ((k : Int) + 1)) := by
    simp only [tag_run_on_partitions, hrt, tag_hash_partitions, hrows, hty,
      tag_hash_rows, hash_to_u32_int ht hint (h k)]
    simp
  simp only [old_split_step, htag]
  have hmap : (tagConn cl (routeOf cl (h k)) ((k : Int) + 1)).conns.map
      (fun conn => if conn.run_tag = (k : Int) + 1
        then split_value func arrays conn k else conn) =
      cl.conns.set (routeOf cl (h k))
        (split_value func arrays
          { connAt cl (routeOf cl (h k)) with run_tag := (k : Int) + 1 } k) := by
    show (cl.conns.set (routeOf cl (h k))
        { connAt cl (routeOf cl (h k)) with run_tag := (k : Int) + 1 }).map _ = _
    rw [map_set_comm]
    have hid : cl.conns.map (fun conn => if conn.run_tag = (k : Int) + 1
        then split_value func arrays conn k else conn) = cl.conns := by
      apply map_eq_self_of
      intro x hx
      have hb := hinv x hx
      rw [if_neg (by omega)]
    rw [hid]
    congr 1
    rw [if_pos rfl]
  rw [hmap]
  rfl

/-- The two split paths perform identical per-row updates: processed
from index k over any suffix, the optimized rows (i + 1, hash i) yield
the same cluster as the fallback loop, provided all run_tags are at most
k and indices stay below 2^31. -/
lemma split_paths_aux (func : Func) (arrays : List (Option DatumArray))
    (ht : POid) (hint : ht ≠ POid.other)
    (hrt : func.run_type = RunOnType.R_HASH)
    (h : Nat → Int) (orc : Nat → TagOracle)
    (horc : ∀ i, (orc i).rows = [some (h i)] ∧ (orc i).htype = ht) :
    ∀ (cnt k : Nat) (cl : Cluster), k + cnt < 2 ^ 31 →
    (∀ c ∈ cl.conns, 0 ≤ c.run_tag ∧ c.run_tag ≤ (k : Int)) →
    new_split_rows func arrays ht ht cl
      ((List.range' k cnt).map (fun (i : Nat) => (some ((i : Int) + 1), some (h i))))
      = (List.range' k cnt).foldlM (old_split_step func arrays orc) cl := by
  intro cnt
  induction cnt with
  | zero => intro k cl _ _; rfl
  | succ cnt ih =>
    intro k cl hlt hinv
    rw [List.range'_succ, List.map_cons, List.foldlM_cons]
    have hbound : ∀ c ∈ cl.conns, 0 ≤ c.run_tag ∧ c.run_tag ≤ (k : Int) := hinv
    -- the skip test never fires: the routed connection has run_tag ≤ k
    have hconn : 0 ≤ (connAt cl (routeOf cl (h k))).run_tag
        ∧ (connAt cl (routeOf cl (h k))).run_tag ≤ (k : Int) := by
      rcases connAt_mem_or_default cl (routeOf cl (h k)) with hm | hd
      · exact hbound _ hm
      · rw [hd]
        exact ⟨le_refl 0, Int.natCast_nonneg k⟩
    have hnoskip : toU32 (connAt cl (routeOf cl (h k))).run_tag ≠ k + 1 := by
      rw [toU32_nonneg _ hconn.1 (by omega)]
      omega
    have hrow : (k + 1 + (2 ^ 32 - 1)) % 2 ^ 32 = k := by
      have : k + 1 + (2 ^ 32 - 1) = k + 2 ^ 32 := by omega
      rw [this, Nat.add_mod_right]
      exact Nat.mod_eq_of_lt (by omega)
    have hidx : toU32 ((k : Int) + 1) = k + 1 := by
      have hc : ((k : Int) + 1) = ((k + 1 : Nat) : Int) := by push_cast; ring
      rw [hc, toU32_natCast _ (by omega)]
    have hcast : toI32 (k + 1) = (k : Int) + 1 := by
      rw [toI32_small _ (by omega)]
      push_cast
      ring
    -- fallback-path head
    rw [old_split_step_eq func arrays orc ht hint hrt h horc k cl hinv,
      except_bind_ok]
    -- optimized-path head
    simp only [new_split_rows, get_int_int ht hint, hidx, hcast, hrow]
    have hnoskip' : toU32 (connAt cl
        (cl.part_map.getD (toU32 (h k) &&& cl.part_mask) 0)).run_tag ≠ k + 1 :=
      hnoskip
    rw [if_neg hnoskip']
    -- both heads now produced the same cluster; recurse
    have hinv' : ∀ c ∈ (split_row_update func arrays h cl k).conns,
        0 ≤ c.run_tag ∧ c.run_tag ≤ ((k + 1 : Nat) : Int) := by
      intro c hc
      have hc' : c ∈ cl.conns.set (routeOf cl (h k))
          (split_value func arrays
            { connAt cl (routeOf cl (h k)) with run_tag := (k : Int) + 1 } k) := hc
      rcases List.mem_or_eq_of_mem_set hc' with hm | rfl
      · have hb := hinv c hm
        push_cast
        omega
      · rw [split_value_run_tag]
        push_cast
        omega
    exact ih (k + 1) (split_row_update func arrays h cl k) (by omega) hinv'

/-- C3: on equal-length one-dimensional split inputs with a
deterministic single-row hash (row i hashing to h i), the optimized
split path consuming the rows (i + 1, h i) for i below L and the
fallback path running one hash query per row produce identical results:
the same tagging and the same per-argument accumulated sub-arrays on
every connection. -/
theorem split_paths_equivalent (func : Func) (arrays : List (Option DatumArray))
    (ht : POid) (h : Nat → Int) (orc : Nat → TagOracle) (L : Nat) (cl : Cluster)
    (hint : ht ≠ POid.other) (hrt : func.run_type = RunOnType.R_HASH)
    (horc : ∀ i, (orc i).rows = [some (h i)] ∧ (orc i).htype = ht)
    (hL : L < 2 ^ 31)
    (hclean : ∀ c ∈ cl.conns, c.run_tag = 0) :
    new_split_args func cl arrays ht ht
      ((List.range L).map (fun (i : Nat) => (some ((i : Int) + 1), some (h i))))
      = old_split_args func cl arrays orc L := by
  unfold new_split_args old_split_args
  rw [List.range_eq_range']
  exact split_paths_aux func arrays ht hint hrt h orc horc L 0 cl (by omega)
    (fun c hc => by simp [hclean c hc])

/-- Fixture function for the split witnesses: one split argument,
hash-routed. -/
def SPfunc : Func :=
  { run_type := RunOnType.R_HASH, arg_count := 1, split_args := [true] }

/-- Fixture cluster for the C3 witness: two partitions, two conns. -/
def SPcl3 : Cluster :=
  { part_count := 2, part_mask := 1, part_map := [0, 1], conns := [{}, {}] }

/-- Fixture split array for the C3 witness. -/
def SPar3 : List (Option DatumArray) := [some { values := [(10, false), (11, false)] }]

/-- Witness for split_paths_equivalent: two elements hashing to distinct
partitions give equal outcomes on both paths. -/
theorem split_paths_equivalent_witness :
    new_split_args SPfunc SPcl3 SPar3 POid.int4 POid.int4
      ((List.range 2).map (fun (i : Nat) => (some ((i : Int) + 1), some ((i : Int)))))
      = old_split_args SPfunc SPcl3 SPar3
          (fun i => { rows := [some (i : Int)], htype := POid.int4 }) 2 :=
  split_paths_equivalent SPfunc SPar3 POid.int4 (fun i => (i : Int))
    (fun i => { rows := [some (i : Int)], htype := POid.int4 }) 2 SPcl3
    (by decide) (by decide) (fun i => ⟨rfl, rfl⟩) (by decide) (by decide)

/-! ### Last-write-wins run_tag characterisation (claim C4) -/

/-- Fixture cluster for the C4 counterexample: one partition. -/
def SPcl4 : Cluster :=
  { part_count := 1, part_mask := 0, part_map := [0], conns := [{}] }

/-- Fixture split array for the C4 counterexample. -/
def SPar4 : List (Option DatumArray) := [some { values := [(10, false), (20, false)] }]

/-- Fixture per-row hash oracle for the C4 counterexample: every element
hashes to 0, so both rows route to the same partition. -/
def SPorc4 : Nat → TagOracle := fun _ => { rows := [some 0], htype := POid.int4 }

/-- C4 counterexample: with both elements routing to the one partition,
the split planner leaves run_tag = 2 (the 1-based index of the LAST
routing element), not 1 (the first), on both the fallback and the
optimized path. -/
theorem split_first_write_cex :
    (old_split_args SPfunc SPcl4 SPar4 SPorc4 2).map (fun c => (connAt c 0).run_tag)
      = Except.ok 2
    ∧ (new_split_args SPfunc SPcl4 SPar4 POid.int4 POid.int4
        [(some 1, some 0), (some 2, some 0)]).map (fun c => (connAt c 0).run_tag)
      = Except.ok 2
    ∧ (2 : Int) ≠ 1 := by
  decide

/-- The 1-based index of the last row in [0, L) whose hash routes to
conn index j, or 0 when no row does. -/
def last_router (cl : Cluster) (h : Nat → Int) (L : Nat) (j : Nat) : Int :=
  (List.range L).foldl
    (fun acc i => if routeOf cl (h i) = j then (i : Int) + 1 else acc) 0

lemma routeOf_split_row_update (func : Func) (arrays : List (Option DatumArray))
    (h : Nat → Int) (cl : Cluster) (k : Nat) (v : Int) :
    routeOf (split_row_update func arrays h cl k) v = routeOf cl v := rfl

lemma conns_length_split_row_update (func : Func)
    (arrays : List (Option DatumArray)) (h : Nat → Int) (cl : Cluster) (k : Nat) :
    (split_row_update func arrays h cl k).conns.length = cl.conns.length := by
  simp [split_row_update, setConn]

/-- Processing rows k, ..., k+cnt-1 through the fallback path rewrites
each connection's run_tag to the 1-based index of the last row routed to
it, keeping the prior value when no row routes there. -/
lemma old_split_run_tags (func : Func) (arrays : List (Option DatumArray))
    (ht : POid) (hint : ht ≠ POid.other)
    (hrt : func.run_type = RunOnType.R_HASH)
    (h : Nat → Int) (orc : Nat → TagOracle)
    (horc : ∀ i, (orc i).rows = [some (h i)] ∧ (orc i).htype = ht) :
    ∀ (cnt k : Nat) (cl cl' : Cluster), k + cnt < 2 ^ 31 →
    (∀ c ∈ cl.conns, 0 ≤ c.run_tag ∧ c.run_tag ≤ (k : Int)) →
    (∀ p ∈ cl.part_map, p < cl.conns.length) → 0 < cl.conns.length →
    (List.range' k cnt).foldlM (old_split_step func arrays orc) cl = Except.ok cl' →
    ∀ j : Nat, (connAt cl' j).run_tag =
      (List.range' k cnt).foldl
        (fun acc i => if routeOf cl (h i) = j then (i : Int) + 1 else acc)
        ((connAt cl j).run_tag) := by
  intro cnt
  induction cnt with
  | zero =>
    intro k cl cl' _ _ _ _ hfold j
    injection hfold with hfold
    subst hfold
    rfl
  | succ cnt ih =>
    intro k cl cl' hlt hinv hwf h0 hfold j
    rw [List.range'_succ, List.foldlM_cons,
      old_split_step_eq func arrays orc ht hint hrt h horc k cl hinv,
      except_bind_ok] at hfold
    rw [List.range'_succ, List.foldl_cons]
    have hinv' : ∀ c ∈ (split_row_update func arrays h cl k).conns,
        0 ≤ c.run_tag ∧ c.run_tag ≤ ((k + 1 : Nat) : Int) := by
      intro c hc
      rcases List.mem_or_eq_of_mem_set hc with hm | rfl
      · have hb := hinv c hm
        push_cast
        omega
      · rw [split_value_run_tag]
        push_cast
        omega
    have hwf' : ∀ p ∈ (split_row_update func arrays h cl k).part_map,
        p < (split_row_update func arrays h cl k).conns.length := by
      rw [conns_length_split_row_update]
      exact hwf
    have h0' : 0 < (split_row_update func arrays h cl k).conns.length := by
      rw [conns_length_split_row_update]
      exact h0
    have hIH := ih (k + 1) (split_row_update func arrays h cl k) cl'
      (by omega) hinv' hwf' h0' hfold j
    simp only [routeOf_split_row_update] at hIH
    rw [hIH]
    congr 1
    by_cases hr : routeOf cl (h k) = j
    · subst hr
      have hlt2 : routeOf cl (h k) < cl.conns.length :=
        getD_lt_of_mem_lt _ _ hwf h0 _
      show (connAt (setConn cl (routeOf cl (h k)) _) (routeOf cl (h k))).run_tag = _
      unfold connAt setConn
      rw [getD_set_self _ _ _ _ hlt2, split_value_run_tag, if_pos rfl]
    · rw [if_neg hr]
      show (connAt (setConn cl (routeOf cl (h k)) _) j).run_tag = _
      unfold connAt setConn
      rw [getD_set_ne _ _ _ _ _ (fun hc => hr hc.symm)]

/-- C4 amended: after the split planner finishes, each connection's
run_tag equals the 1-based index of the LAST element that routed to it
(later routings overwrite earlier tags), and the optimized path agrees
with the fallback path. -/
theorem split_last_write_wins (func : Func) (arrays : List (Option DatumArray))
    (ht : POid) (h : Nat → Int) (orc : Nat → TagOracle) (L : Nat)
    (cl cl' : Cluster)
    (hint : ht ≠ POid.other) (hrt : func.run_type = RunOnType.R_HASH)
    (horc : ∀ i, (orc i).rows = [some (h i)] ∧ (orc i).htype = ht)
    (hL : L < 2 ^ 31)
    (hclean : ∀ c ∈ cl.conns, c.run_tag = 0)
    (hwf : ∀ p ∈ cl.part_map, p < cl.conns.length) (h0 : 0 < cl.conns.length)
    (hold : old_split_args func cl arrays orc L = Except.ok cl') :
    (∀ j : Nat, (connAt cl' j).run_tag = last_router cl h L j)
    ∧ new_split_args func cl arrays ht ht
        ((List.range L).map (fun (i : Nat) => (some ((i : Int) + 1), some (h i))))
        = Except.ok cl' := by
  have hinit : ∀ j : Nat, (connAt cl j).run_tag = 0 := by
    intro j
    rcases connAt_mem_or_default cl j with hm | hd
    · exact hclean _ hm
    · rw [hd]
      rfl
  constructor
  · intro j
    have := old_split_run_tags func arrays ht hint hrt h orc horc L 0 cl cl'
      (by omega) (fun c hc => by simp [hclean c hc]) hwf h0
      (by rw [← List.range_eq_range']; exact hold) j
    rw [this, hinit j]
    unfold last_router
    rw [List.range_eq_range']
  · rw [← hold]
    unfold new_split_args old_split_args
    rw [List.range_eq_range']
    exact split_paths_aux func arrays ht hint hrt h orc horc L 0 cl (by omega)
      (fun c hc => by simp [hclean c hc])

/-- The fallback-path outcome on the C4 fixture. -/
def SPcl4conn : Conn :=
  { run_tag := 2, bstate := some [[(10, false), (20, false)]] }

/-- The cluster the split planner produces on the C4 fixture. -/
def SPcl4res : Cluster := { SPcl4 with conns := [SPcl4conn] }

/-- Witness for split_last_write_wins: both fixture rows route to
partition 0, whose run_tag ends as 2 = last_router, on both paths. -/
theorem split_last_write_wins_witness :
    (∀ j : Nat, (connAt SPcl4res j).run_tag = last_router SPcl4 (fun _ => 0) 2 j)
    ∧ new_split_args SPfunc SPcl4 SPar4 POid.int4 POid.int4
        ((List.range 2).map (fun (i : Nat) => (some ((i : Int) + 1), some ((fun _ => (0 : Int)) i))))
        = Except.ok SPcl4res :=
  split_last_write_wins SPfunc SPar4 POid.int4 (fun _ => 0) SPorc4 2 SPcl4 SPcl4res
    (by decide) (by decide) (fun i => ⟨rfl, rfl⟩) (by decide) (by decide)
    (by decide) (by decide) (by decide)

/-! ### Per-call state across plproxy_exec (claim C5) -/

lemma connAt_clean_results (cl : Cluster) (j : Nat) :
    connAt (plproxy_clean_results cl) j =
      { connAt cl j with res := none, pos := 0, run_tag := 0, bstate := none } := by
  have h := getD_map_eq
    (fun conn => { conn with res := none, pos := 0, run_tag := 0, bstate := none })
    cl.conns j default
  exact h

/-- A normal return of the modelled plproxy_exec passed the final
validation pass on the very connection list it returns. -/
lemma exec_model_ok_validate (func : Func) (fc : FCInfo) (cl : Cluster)
    (orc : CallOracle) (c : Cluster)
    (h : plproxy_exec_model func fc cl orc = some (Except.ok c)) :
    ∃ n, validate_results c.conns = Except.ok n := by
  simp only [plproxy_exec_model] at h
  rcases hp : prepare_and_tag_partitions func fc
      (plproxy_clean_results { cl with busy := true }) orc.split with e | cl1
  · simp [hp] at h
  · simp only [hp] at h
    simp only [remote_execute] at h
    rcases hpr : prime_conns cl1.config func cl1 orc.exec with e | pr
    · simp [hpr] at h
    · obtain ⟨cl2, pending⟩ := pr
      simp only [hpr] at h
      rcases hd : drive cl1.config func cl2 orc.exec.rounds pending with _ | r
      · simp [hd] at h
      · rcases r with e | cl3
        · simp [hd] at h
        · simp only [hd] at h
          rcases hv : validate_results cl3.conns with e | tot
          · simp [hv] at h
          · simp only [hv, Option.some.injEq] at h
            injection h with h
            subst h
            exact ⟨tot, hv⟩

/-- Fixture cluster for the C5 scenario: one partition backed by a
healthy cached C_READY connection. -/
def EXcl : Cluster :=
  { config := {}, part_count := 1, part_mask := 0, part_map := [0],
    conns := [{ state := ConnState.C_READY }] }

/-- Fixture function: RUN ON 0, no split, scalar text result. -/
def EXfunc : Func := { run_type := RunOnType.R_EXACT, exact_nr := 0 }

/-- Fixture oracle for one clean round trip: same-version remote, no
tuning, flush drains at once, one TUPLES_OK result of three rows. -/
def EXorc : CallOracle :=
  { exec := { send0 := fun _ => { local_ver := ['9'], dst_ver := ['9'] },
              rounds := [ { now := 0, events := some (fun _ => some
                (NetEvent.readEv true
                  [{ status := ExecStatus.PGRES_TUPLES_OK, ntuples := 3 }]
                  true)) } ] } }

/-- C5 counterexample: the modelled plproxy_exec returns NORMALLY on the
fixture scenario with the armed connection still holding run_tag = 1 and
its result — per-call state is not cleared on the success path (the
results stay for the result iterator; plproxy_clean_results runs at the
START of each call and in the catch block). -/
theorem exec_state_cleared_cex :
    (plproxy_exec_model EXfunc {} EXcl EXorc).map
      (Except.map (fun c => ((connAt c 0).run_tag, (connAt c 0).res.isSome)))
      = some (Except.ok (1, true)) := by
  decide

/-- C5 amended: per-call state (run_tag, res, bstate, pos) is cleared by
plproxy_clean_results, which plproxy_exec invokes before the phases of
every call and from its catch handler before re-raising; a NORMALLY
returning call instead leaves every armed connection holding its
validated result until the next call cleans it. -/
theorem clean_results_and_retention :
    (∀ (cl : Cluster) (j : Nat),
      (connAt (plproxy_clean_results cl) j).run_tag = 0
      ∧ (connAt (plproxy_clean_results cl) j).res = none
      ∧ (connAt (plproxy_clean_results cl) j).bstate = none)
    ∧ (∀ (func : Func) (fc : FCInfo) (cl : Cluster) (orc : CallOracle)
        (c : Cluster),
        plproxy_exec_model func fc cl orc = some (Except.ok c) →
        ∀ conn ∈ c.conns, conn.run_tag ≠ 0 → conn.res.isSome = true) := by
  constructor
  · intro cl j
    rw [connAt_clean_results]
    exact ⟨rfl, rfl, rfl⟩
  · intro func fc cl orc c h conn hconn hrt
    obtain ⟨n, hv⟩ := exec_model_ok_validate func fc cl orc c h
    exact ((validate_ok_mem c.conns n hv conn hconn).1).mp hrt

/-- A connection carrying stale per-call state. -/
def EXdirtyconn : Conn :=
  { run_tag := 7, pos := 2, bstate := some [[]],
    res := some { status := ExecStatus.PGRES_TUPLES_OK, ntuples := 1 } }

/-- A dirty cluster whose connection carries stale per-call state. -/
def EXdirty : Cluster := { conns := [EXdirtyconn] }

/-- The connection state of the C5 fixture after the normal return. -/
def EXconnres : Conn :=
  { state := ConnState.C_DONE, same_ver := true, run_tag := 1,
    res := some { status := ExecStatus.PGRES_TUPLES_OK, ntuples := 3 } }

/-- The cluster the C5 fixture call returns. -/
def EXres : Cluster :=
  { config := {}, part_count := 1, part_mask := 0, part_map := [0],
    conns := [EXconnres], ret_total := 3 }

/-- Witness for clean_results_and_retention: cleaning the dirty fixture
clears connection 0, and the fixture call retains results on its armed
connection. -/
theorem clean_results_and_retention_witness :
    ((connAt (plproxy_clean_results EXdirty) 0).run_tag = 0
      ∧ (connAt (plproxy_clean_results EXdirty) 0).res = none
      ∧ (connAt (plproxy_clean_results EXdirty) 0).bstate = none)
    ∧ (∀ conn ∈ EXres.conns, conn.run_tag ≠ 0 → conn.res.isSome = true) :=
  ⟨clean_results_and_retention.1 EXdirty 0,
   clean_results_and_retention.2 EXfunc {} EXcl EXorc EXres (by decide)⟩

end PlProxy
